import Mathlib

set_option autoImplicit false

/-!
Shallow embedding of the pfund-kit configuration core:
`src/pfund_kit/paths.py` (project-layout resolver) and
`src/pfund_kit/config.py` (versioned configuration store).

Filesystem paths are modelled as an absolute-flag plus a list of segments
(`PyPath`), the on-disk config document as an association list from string
keys to values (`Doc`), and the filesystem state visible to the store as
`FS`.  Construction of the `Configuration` object is the function
`construct`, which returns the resulting store (when construction
succeeds), the new filesystem state, the informational messages printed,
and the error raised (when construction aborts).
-/

namespace PfundKit

/-- Model of a `pathlib.Path` value: whether the path is absolute, plus its
    segments.  `join` models `p / s` for a plain segment name, `parent`
    models `.parent`, `name` models `.name`. -/
structure PyPath where
  absolute : Bool
  segs : List String
deriving DecidableEq

def PyPath.join (p : PyPath) (s : String) : PyPath :=
  ⟨p.absolute, p.segs ++ [s]⟩

def PyPath.parent (p : PyPath) : PyPath :=
  ⟨p.absolute, p.segs.dropLast⟩

def PyPath.name (p : PyPath) : String :=
  p.segs.getLast?.getD ""

/-- Model of `str(p)` for a `pathlib.Path`. -/
def PyPath.str (p : PyPath) : String :=
  (if p.absolute then "/" else "") ++ String.intercalate "/" p.segs

/-- Split a character list on a separator character (the splitting core of
    Python `str.split(sep)`): `splitChar '.' "a.b" = ["a", "b"]` with empty
    groups kept, as in Python. -/
def splitChar (sep : Char) : List Char → List (List Char)
  | [] => [[]]
  | c :: cs =>
      let r := splitChar sep cs
      if c = sep then [] :: r
      else
        match r with
        | [] => [[c]]
        | g :: gs => (c :: g) :: gs

/-- Strip leading and trailing whitespace (Python `str.strip()` /
    `float()`'s implicit stripping). -/
def trimChars (cs : List Char) : List Char :=
  ((cs.dropWhile Char.isWhitespace).reverse.dropWhile Char.isWhitespace).reverse

/-- ASCII lowercasing of one character (Python `str.lower()` on the ASCII
    project names this code handles). -/
def lowerChar (c : Char) : Char :=
  if 'A' ≤ c ∧ c ≤ 'Z' then Char.ofNat (c.toNat + 32) else c

/-- Model of Python `str.lower()`. -/
def lowerString (s : String) : String :=
  String.mk (s.toList.map lowerChar)

/-- Model of `Path(s)` for a string `s`: split on the separator, dropping
    empty segments (pathlib collapses repeated separators); the path is
    absolute when the string starts with the separator. -/
def PyPath.ofString (s : String) : PyPath :=
  ⟨s.toList.head? == some '/',
   ((splitChar '/' s.toList).filter (fun g => !g.isEmpty)).map String.mk⟩

/-- `paths.py` `_detect_project_layout`: canonicalize the reference file
    path, take its parent directory as the package path and that
    directory's final segment as the package name.  `Path.resolve()` (an
    OS operation: symlink and relative-segment resolution) is passed in as
    a parameter `resolve`. -/
def detect_project_layout (resolve : PyPath → PyPath) (source_file : PyPath) :
    String × PyPath :=
  let source_path := resolve source_file
  let package_path := source_path.parent
  let package_name := package_path.name
  (package_name, package_path)

/-- The four platformdirs base directories for the current user and OS
    (`user_log_dir()` etc. in `paths.py`). -/
structure Env where
  user_log_dir : PyPath
  user_data_dir : PyPath
  user_cache_dir : PyPath
  user_config_dir : PyPath
deriving DecidableEq

/-- The fields set up by `ProjectPaths.__init__` / `_setup_paths`. -/
structure ProjectPaths where
  project_name : String
  package_path : PyPath
  log_path : PyPath
  data_path : PyPath
  cache_path : PyPath
  config_path : PyPath
  config_file_path : PyPath
deriving DecidableEq

/-- `ProjectPaths._setup_paths`: derive the user directories from the
    platform convention roots, namespaced by project name; the config
    directory gets a fixed `config` subdirectory, and the config file name
    is the project name (verbatim, as in the source) plus `_config.yml`. -/
def setup_paths (project_name : String) (package_path : PyPath) (env : Env) :
    ProjectPaths :=
  let log_path := env.user_log_dir.join project_name
  let data_path := env.user_data_dir.join project_name
  let cache_path := env.user_cache_dir.join project_name
  let config_path := (env.user_config_dir.join project_name).join "config"
  let config_filename := project_name ++ "_config.yml"
  { project_name := project_name
    package_path := package_path
    log_path := log_path
    data_path := data_path
    cache_path := cache_path
    config_path := config_path
    config_file_path := config_path.join config_filename }

/-- `ProjectPaths.__init__`: detect layout from the reference file, then
    use the caller-provided project name if it is truthy
    (`project_name or detected_name`), else the detected one. -/
def ProjectPaths.make (resolve : PyPath → PyPath) (project_name : Option String)
    (source_file : PyPath) (env : Env) : ProjectPaths :=
  let detected := detect_project_layout resolve source_file
  let name :=
    match project_name with
    | none => detected.1
    | some s => if s = "" then detected.1 else s
  setup_paths name detected.2 env

/-- A value stored in the config document: either a plain string or a
    path object (the yaml collaborator serializes `Path` values with a
    dedicated tag and round-trips them). -/
inductive Val where
  | str (s : String)
  | path (p : PyPath)
deriving DecidableEq

/-- Printable form of a document value, used in messages. -/
def Val.show : Val → String
  | Val.str s => s
  | Val.path p => p.str

/-- The config document: a mapping from string keys to values. -/
abbrev Doc := List (String × Val)

def lookupDoc (d : Doc) (k : String) : Option Val :=
  (d.find? (fun e => e.1 == k)).map (fun e => e.2)

def keysOf (d : Doc) : List String :=
  d.map (fun e => e.1)

def natOfDigits (cs : List Char) : Nat :=
  cs.foldl (fun n c => 10 * n + (c.toNat - 48)) 0

/-- An exact decimal number `num / 10 ^ scale`: the value of a parsed
    version string. -/
structure PyDec where
  num : Nat
  scale : Nat
deriving DecidableEq

/-- Numeric strict order on parsed version values (cross-multiplied
    comparison of `x.num / 10 ^ x.scale` and `y.num / 10 ^ y.scale`).  On
    the spec's version grammar this coincides with Python's `float`
    comparison. -/
def pyDecLt (x y : PyDec) : Prop :=
  x.num * 10 ^ y.scale < y.num * 10 ^ x.scale

instance (x y : PyDec) : Decidable (pyDecLt x y) :=
  Nat.decLt _ _

/-- Model of Python `float(s)` on the spec's version grammar (§6: dotted
    numeric, a single decimal point at most, e.g. `"0.1"`, `"1.0"`);
    values are exact decimals, and any string outside the grammar fails to
    parse (Python raises `ValueError`). -/
def pyFloat (s : String) : Option PyDec :=
  let t := trimChars s.toList
  match splitChar '.' t with
  | [a] =>
      if !a.isEmpty && a.all Char.isDigit then some ⟨natOfDigits a, 0⟩ else none
  | [a, b] =>
      if !(a.isEmpty && b.isEmpty) && a.all Char.isDigit && b.all Char.isDigit then
        some ⟨natOfDigits a * 10 ^ b.length + natOfDigits b, b.length⟩
      else none
  | _ => none

/-- `float(v)` on a document value: a non-string value is not parseable
    (Python would raise; construction aborts either way). -/
def Val.pyFloatOf : Val → Option PyDec
  | Val.str s => pyFloat s
  | Val.path _ => none

/-- `Configuration.__version__`. -/
def CURRENT_VERSION : String := "0.1"

def LOGGING_CONFIG_FILENAME : String := "logging.yml"

def DOCKER_COMPOSE_FILENAME : String := "compose.yml"

/-- `Configuration.DEFAULT_FILES`. -/
def DEFAULT_FILES : List String :=
  [LOGGING_CONFIG_FILENAME, DOCKER_COMPOSE_FILENAME]

/-- The mutable per-instance fields of `Configuration`. -/
structure Store where
  config_path : PyPath
  config_filename : String
  data_path : PyPath
  log_path : PyPath
  cache_path : PyPath
deriving DecidableEq

/-- `Configuration.file_path`. -/
def Store.file_path (st : Store) : PyPath :=
  st.config_path.join st.config_filename

/-- `Configuration.to_dict`: the canonical schema mapping. -/
def to_dict (st : Store) : Doc :=
  [("__version__", Val.str CURRENT_VERSION),
   ("data_path", Val.path st.data_path),
   ("log_path", Val.path st.log_path),
   ("cache_path", Val.path st.cache_path)]

/-- Informational messages printed during construction. -/
inductive Msg where
  | reset (file : PyPath)
  | migrating (fromVersion toVersion : String)
  | addingFields (keys : List String)
  | removingFields (keys : List String)
  | copied (filename : String)
deriving DecidableEq

/-- Errors that abort construction. -/
inductive Err where
  | assertionError (msg : String)
  | valueError
  | fileNotFound (filename : String) (packagePath : PyPath)
  | typeError (msg : String)
deriving DecidableEq

/-- `Configuration._migrate`: assert the document version is strictly
    older than the current version (float comparison), report the key
    diff informationally, and persist `to_dict` as the new document.
    Returns the new file content and the messages printed, or the error
    raised. -/
def migrate (st : Store) (existing_data : Doc) (existing_version : Val) :
    Except Err (Doc × List Msg) :=
  match existing_version.pyFloatOf, pyFloat CURRENT_VERSION with
  | some fromv, some tov =>
      if pyDecLt fromv tov then
        let expected_data := to_dict st
        let expected_keys := keysOf expected_data
        let existing_keys := keysOf existing_data
        let new_keys := expected_keys.filter (fun k => !(existing_keys.contains k))
        let removed_keys := existing_keys.filter (fun k => !(expected_keys.contains k))
        let msgs :=
          [Msg.migrating existing_version.show CURRENT_VERSION]
            ++ (if new_keys.isEmpty then [] else [Msg.addingFields new_keys])
            ++ (if removed_keys.isEmpty then [] else [Msg.removingFields removed_keys])
        Except.ok (expected_data, msgs)
      else
        Except.error (Err.assertionError
          ("Cannot migrate from version " ++ existing_version.show ++ " to " ++ CURRENT_VERSION))
  | _, _ => Except.error Err.valueError

/-- All ancestors of a path, itself included (what
    `mkdir(parents=True)` creates). -/
def ancestorsOf (p : PyPath) : List PyPath :=
  (List.range (p.segs.length + 1)).map (fun n => ⟨p.absolute, p.segs.take n⟩)

/-- `path.mkdir(parents=True, exist_ok=True)` on a set of existing
    directories: add the path and its ancestors; no error when already
    present. -/
def mkdirP (dirs : List PyPath) (p : PyPath) : List PyPath :=
  dirs ++ (ancestorsOf p).filter (fun q => !(dirs.contains q))

/-- An argument passed to `ensure_dirs`: a `Path` instance or anything
    else (carrying its display text). -/
inductive PyObj where
  | path (p : PyPath)
  | notPath (r : String)
deriving DecidableEq

/-- The loop body of `Configuration.ensure_dirs`: validate each argument
    in turn, creating directories as it goes; on the first non-`Path`
    argument raise `TypeError`.  The error carries the directories
    already created when the exception is raised. -/
def ensureDirsLoop : List PyObj → List PyPath → Except (List PyPath × String) (List PyPath)
  | [], dirs => Except.ok dirs
  | PyObj.path p :: rest, dirs => ensureDirsLoop rest (mkdirP dirs p)
  | PyObj.notPath r :: _rest, dirs =>
      Except.error (dirs, "Path " ++ r ++ " is not a Path object")

/-- `Configuration.ensure_dirs`: with no arguments, default to the four
    standard directories. -/
def ensure_dirs (st : Store) (args : List PyObj) (dirs : List PyPath) :
    Except (List PyPath × String) (List PyPath) :=
  let args :=
    if args.isEmpty then
      [PyObj.path st.config_path, PyObj.path st.data_path,
       PyObj.path st.log_path, PyObj.path st.cache_path]
    else args
  ensureDirsLoop args dirs

/-- Result of default-file seeding: the files now present in the user
    config directory, the copy messages printed, and the error raised
    (if any). -/
structure SeedResult where
  user : List String
  msgs : List Msg
  err : Option Err
deriving DecidableEq

/-- `Configuration._initialize_default_files`: for each filename in turn,
    skip it when it already exists in the user config directory, copy it
    from the package directory when present there, and otherwise raise
    `FileNotFoundError` naming the filename and the package directory. -/
def seedFiles (package_path : PyPath) (pkg : List String) (user : List String) :
    List String → SeedResult
  | [] => ⟨user, [], none⟩
  | f :: rest =>
      if user.contains f then seedFiles package_path pkg user rest
      else if pkg.contains f then
        let r := seedFiles package_path pkg (user ++ [f]) rest
        ⟨r.user, Msg.copied f :: r.msgs, r.err⟩
      else ⟨user, [], some (Err.fileNotFound f package_path)⟩

/-- The filesystem state the store interacts with: the content of the
    config file (none when the file is missing), the auxiliary files
    present in the user config directory and in the package directory,
    and the directories that exist. -/
structure FS where
  configFile : Option Doc
  userFiles : List String
  pkgFiles : List String
  dirs : List PyPath
deriving DecidableEq

/-- The observable result of running `Configuration.__init__`. -/
structure Outcome where
  store : Option Store
  fs : FS
  msgs : List Msg
  err : Option Err
deriving DecidableEq

/-- `Path(v)` on a document value: path values pass through, strings are
    parsed. -/
def pyPathOfVal : Val → PyPath
  | Val.path p => p
  | Val.str s => PyPath.ofString s

/-- `Path(data.get(key, default))` where `default` is already a path. -/
def getPathField (data : Doc) (key : String) (default : PyPath) : PyPath :=
  match lookupDoc data key with
  | some v => pyPathOfVal v
  | none => default

/-- `Modelled from the spec: the yaml collaborator module
    (pfund_kit/utils/yaml.py) is not under src/.  Per the spec it is an
    opaque load/dump pair; load returns None for a missing file (so
    `load(...) or \x7b\x7d` yields the empty document) and dump persists
    the mapping as given.  Loading is therefore `fs.configFile.getD []`
    and saving replaces `fs.configFile` with the dumped document. -/
def loadConfigFile (fs : FS) : Doc :=
  fs.configFile.getD []

/-- `Configuration.save`: serialize `to_dict()` to the config file,
    overwriting it. -/
def save (st : Store) (fs : FS) : FS :=
  { fs with configFile := some (to_dict st) }

/-- The per-instance fields populated by `Configuration.__init__` before
    version reconciliation: the fixed config path and filename (lowercased
    project name), and the three configurable paths read from the document
    with resolver defaults. -/
def storeOf (pp : ProjectPaths) (data : Doc) : Store :=
  { config_path := pp.config_path
    config_filename := lowerString pp.project_name ++ "_config.yml"
    data_path := getPathField data "data_path" pp.data_path
    log_path := getPathField data "log_path" pp.log_path
    cache_path := getPathField data "cache_path" pp.cache_path }

/-- Version reconciliation in `Configuration.__init__` (lines 49-56): a
    document without `__version__` triggers the reset (warning plus
    `save()`); a matching version is a no-op; any other version runs
    `_migrate`.  Returns the new file content (`none` when the file is
    left alone) and messages, or the error raised. -/
def reconcileVersion (st : Store) (data : Doc) : Except Err (Option Doc × List Msg) :=
  match lookupDoc data "__version__" with
  | none => Except.ok (some (to_dict st), [Msg.reset st.file_path])
  | some v =>
      if v = Val.str CURRENT_VERSION then Except.ok (none, [])
      else
        match migrate st data v with
        | Except.ok (newDoc, msgs) => Except.ok (some newDoc, msgs)
        | Except.error e => Except.error e

/-- `Configuration.__init__` after path resolution: load the document,
    populate the path fields, reconcile the version (reset / migrate /
    no-op), ensure the four directories, and seed the default files. -/
def construct (pp : ProjectPaths) (fs : FS) : Outcome :=
  let data := loadConfigFile fs
  let st := storeOf pp data
  match reconcileVersion st data with
  | Except.error e => { store := none, fs := fs, msgs := [], err := some e }
  | Except.ok (newFile, msgs1) =>
      let configFile1 :=
        match newFile with
        | some d => some d
        | none => fs.configFile
      let dirs1 := [st.config_path, st.data_path, st.log_path, st.cache_path].foldl mkdirP fs.dirs
      let sr := seedFiles pp.package_path fs.pkgFiles fs.userFiles DEFAULT_FILES
      let fs2 : FS :=
        { configFile := configFile1
          userFiles := sr.user
          pkgFiles := fs.pkgFiles
          dirs := dirs1 }
      match sr.err with
      | some e => { store := none, fs := fs2, msgs := msgs1 ++ sr.msgs, err := some e }
      | none => { store := some st, fs := fs2, msgs := msgs1 ++ sr.msgs, err := none }

/-! Concrete sample data used by the scenario theorems and witnesses. -/

def sampleEnv : Env :=
  ⟨⟨true, ["tmp", "logs"]⟩, ⟨true, ["tmp", "data"]⟩,
   ⟨true, ["tmp", "cache"]⟩, ⟨true, ["tmp", "config"]⟩⟩

def samplePP : ProjectPaths :=
  setup_paths "testproject" ⟨true, ["site-packages", "test_pkg"]⟩ sampleEnv

def sampleFS : FS :=
  ⟨none, [], DEFAULT_FILES, []⟩

/-- The spec's reset scenario document: custom data and log paths, no
    version, no cache path. -/
def doc5 : Doc :=
  [("data_path", Val.str "/custom"), ("log_path", Val.str "/custom2")]

def fs5 : FS :=
  { configFile := some doc5, userFiles := [], pkgFiles := DEFAULT_FILES, dirs := [] }

/-- A document stamped with a version newer than the running schema. -/
def doc99 : Doc :=
  [("__version__", Val.str "99.0"), ("data_path", Val.path ⟨true, ["x"]⟩)]

/-- A document stamped with the current schema version. -/
def docCur : Doc :=
  [("__version__", Val.str "0.1"), ("data_path", Val.path ⟨true, ["x"]⟩)]

/-! Helper lemmas. -/

theorem contains_iff_mem {α : Type} [BEq α] [LawfulBEq α] {l : List α} {a : α} :
    l.contains a = true ↔ a ∈ l := by
  induction l with
  | nil => simp
  | cons b t ih => simp [List.contains_cons] at *

theorem seedFiles_user_mono (P : PyPath) (pkg : List String) (files : List String) :
    ∀ user : List String, ∀ f ∈ user, f ∈ (seedFiles P pkg user files).user := by
  induction files with
  | nil => intro user f hf; simpa [seedFiles] using hf
  | cons g rest ih =>
      intro user f hf
      by_cases h1 : g ∈ user
      · simpa [seedFiles, h1] using ih user f hf
      · by_cases h2 : g ∈ pkg
        · simpa [seedFiles, h1, h2] using ih (user ++ [g]) f (List.mem_append_left _ hf)
        · simpa [seedFiles, h1, h2] using hf

theorem seedFiles_ok_user (P : PyPath) (pkg : List String) (files : List String) :
    ∀ user : List String, (seedFiles P pkg user files).err = none →
      ∀ f ∈ files, f ∈ (seedFiles P pkg user files).user := by
  induction files with
  | nil => intro user _ f hf; simp at hf
  | cons g rest ih =>
      intro user herr f hf
      by_cases h1 : g ∈ user
      · simp only [seedFiles] at herr ⊢
        rw [if_pos (contains_iff_mem.mpr h1)] at herr ⊢
        rcases List.mem_cons.mp hf with hf | hf
        · subst hf; exact seedFiles_user_mono P pkg rest user f h1
        · exact ih user herr f hf
      · by_cases h2 : g ∈ pkg
        · have hc1 : user.contains g = false := by
            simpa using fun h => h1 (contains_iff_mem.mp h)
          have hc2 : pkg.contains g = true := contains_iff_mem.mpr h2
          simp only [seedFiles, hc1, hc2, Bool.false_eq_true, if_false, if_true] at herr ⊢
          rcases List.mem_cons.mp hf with hf | hf
          · subst hf
            exact seedFiles_user_mono P pkg rest (user ++ [f]) f
              (List.mem_append_right _ (List.mem_singleton.mpr rfl))
          · exact ih (user ++ [g]) herr f hf
        · simp [seedFiles, h1, h2] at herr

theorem seedFiles_all_present (P : PyPath) (pkg : List String) (files : List String) :
    ∀ user : List String, (∀ f ∈ files, f ∈ user) →
      seedFiles P pkg user files = ⟨user, [], none⟩ := by
  induction files with
  | nil => intro user _; rfl
  | cons g rest ih =>
      intro user hall
      have hg : user.contains g = true :=
        contains_iff_mem.mpr (hall g (List.mem_cons_self g rest))
      simp only [seedFiles, hg, if_true]
      exact ih user (fun f hf => hall f (List.mem_cons_of_mem g hf))

theorem seedFiles_err_shape (P : PyPath) (pkg : List String) (files : List String) :
    ∀ user : List String, ∀ e : Err, (seedFiles P pkg user files).err = some e →
      ∃ f, e = Err.fileNotFound f P := by
  induction files with
  | nil => intro user e he; simp [seedFiles] at he
  | cons g rest ih =>
      intro user e he
      by_cases h1 : g ∈ user
      · simp only [seedFiles] at he
        rw [if_pos (contains_iff_mem.mpr h1)] at he
        exact ih user e he
      · by_cases h2 : g ∈ pkg
        · have hc1 : user.contains g = false := by
            simpa using fun h => h1 (contains_iff_mem.mp h)
          have hc2 : pkg.contains g = true := contains_iff_mem.mpr h2
          simp only [seedFiles, hc1, hc2, Bool.false_eq_true, if_false, if_true] at he
          exact ih (user ++ [g]) e he
        · have hc1 : user.contains g = false := by
            simpa using fun h => h1 (contains_iff_mem.mp h)
          have hc2 : pkg.contains g = false := by
            simpa using fun h => h2 (contains_iff_mem.mp h)
          simp only [seedFiles, hc1, hc2, Bool.false_eq_true, if_false] at he
          exact ⟨g, by simpa using he.symm⟩

theorem seedFiles_msgs_copied (P : PyPath) (pkg : List String) (files : List String) :
    ∀ user : List String, ∀ m ∈ (seedFiles P pkg user files).msgs, ∃ f, m = Msg.copied f := by
  induction files with
  | nil => intro user m hm; simp [seedFiles] at hm
  | cons g rest ih =>
      intro user m hm
      by_cases h1 : g ∈ user
      · simp only [seedFiles] at hm
        rw [if_pos (contains_iff_mem.mpr h1)] at hm
        exact ih user m hm
      · by_cases h2 : g ∈ pkg
        · have hc1 : user.contains g = false := by
            simpa using fun h => h1 (contains_iff_mem.mp h)
          have hc2 : pkg.contains g = true := contains_iff_mem.mpr h2
          simp only [seedFiles, hc1, hc2, Bool.false_eq_true, if_false, if_true] at hm
          rcases List.mem_cons.mp hm with hm | hm
          · exact ⟨g, hm⟩
          · exact ih (user ++ [g]) m hm
        · simp [seedFiles, h1, h2] at hm

theorem mem_ancestorsOf_self (p : PyPath) : p ∈ ancestorsOf p := by
  refine List.mem_map.mpr ⟨p.segs.length, ?_, ?_⟩
  · exact List.mem_range.mpr (Nat.lt_succ_self _)
  · simp [List.take_length]

theorem mem_mkdirP_self (dirs : List PyPath) (p : PyPath) : p ∈ mkdirP dirs p := by
  by_cases h : p ∈ dirs
  · exact List.mem_append_left _ h
  · refine List.mem_append_right _ (List.mem_filter.mpr ⟨mem_ancestorsOf_self p, ?_⟩)
    simp [h]

theorem mem_mkdirP_mono (dirs : List PyPath) (p q : PyPath) (h : q ∈ dirs) :
    q ∈ mkdirP dirs p :=
  List.mem_append_left _ h

theorem mem_foldl_mkdirP_mono (ps : List PyPath) :
    ∀ dirs : List PyPath, ∀ q ∈ dirs, q ∈ ps.foldl mkdirP dirs := by
  induction ps with
  | nil => intro dirs q hq; simpa using hq
  | cons a t ih => intro dirs q hq; exact ih (mkdirP dirs a) q (mem_mkdirP_mono _ _ _ hq)

theorem mem_foldl_mkdirP_self (ps : List PyPath) :
    ∀ dirs : List PyPath, ∀ p ∈ ps, p ∈ ps.foldl mkdirP dirs := by
  induction ps with
  | nil => intro dirs p hp; simp at hp
  | cons a t ih =>
      intro dirs p hp
      rcases List.mem_cons.mp hp with hp | hp
      · subst hp; exact mem_foldl_mkdirP_mono t (mkdirP dirs p) p (mem_mkdirP_self dirs p)
      · exact ih (mkdirP dirs a) p hp

theorem ensureDirsLoop_paths (ps : List PyPath) (rest : List PyObj) :
    ∀ dirs : List PyPath,
      ensureDirsLoop (ps.map PyObj.path ++ rest) dirs = ensureDirsLoop rest (ps.foldl mkdirP dirs) := by
  induction ps with
  | nil => intro dirs; rfl
  | cons a t ih =>
      intro dirs
      simp only [List.map_cons, List.cons_append, ensureDirsLoop, List.foldl_cons]
      exact ih (mkdirP dirs a)

theorem construct_store_some (pp : ProjectPaths) (fs : FS) (st : Store)
    (h : (construct pp fs).store = some st) :
    st = storeOf pp (loadConfigFile fs)
      ∧ (construct pp fs).fs.userFiles
          = (seedFiles pp.package_path fs.pkgFiles fs.userFiles DEFAULT_FILES).user
      ∧ (seedFiles pp.package_path fs.pkgFiles fs.userFiles DEFAULT_FILES).err = none
      ∧ (construct pp fs).fs.pkgFiles = fs.pkgFiles := by
  simp only [construct] at h ⊢
  cases hrv : reconcileVersion (storeOf pp (loadConfigFile fs)) (loadConfigFile fs) with
  | error e => rw [hrv] at h; simp at h
  | ok pr =>
      obtain ⟨newFile, msgs1⟩ := pr
      cases hse : (seedFiles pp.package_path fs.pkgFiles fs.userFiles DEFAULT_FILES).err with
      | some e =>
          simp [hrv, hse] at h
      | none =>
          simp [hrv, hse] at h ⊢
          exact h.symm

/-! Claim theorems. -/

/-- C1: for every config document whose `__version__` value parses as a
    float numerically greater than the current schema version (1/10),
    constructing the Configuration store raises the migration assertion
    error, aborting construction: no store is produced, the filesystem
    (in particular the config file) is untouched, and no migration
    message is printed. -/
theorem newer_version_always_aborts
    (pp : ProjectPaths) (fs : FS) (doc : Doc) (v : String) (d : PyDec)
    (hdoc : fs.configFile = some doc)
    (hv : lookupDoc doc "__version__" = some (Val.str v))
    (hq : pyFloat v = some d)
    (hgt : pyDecLt ⟨1, 1⟩ d) :
    (construct pp fs).err
        = some (Err.assertionError
            ("Cannot migrate from version " ++ v ++ " to " ++ CURRENT_VERSION))
      ∧ (construct pp fs).store = none
      ∧ (construct pp fs).fs = fs
      ∧ (construct pp fs).msgs = [] := by
  have hdata : loadConfigFile fs = doc := by simp [loadConfigFile, hdoc]
  have hcur : pyFloat CURRENT_VERSION = some ⟨1, 1⟩ := by decide
  have hvne : Val.str v ≠ Val.str CURRENT_VERSION := by
    intro hEq
    have hv' : v = CURRENT_VERSION := Val.str.inj hEq
    rw [hv', hcur] at hq
    injection hq with h
    rw [← h] at hgt
    simp [pyDecLt] at hgt
  have hnot : ¬ pyDecLt d ⟨1, 1⟩ := fun hlt => absurd hgt (Nat.lt_asymm hlt)
  have hmig : migrate (storeOf pp doc) doc (Val.str v)
      = Except.error (Err.assertionError
          ("Cannot migrate from version " ++ v ++ " to " ++ CURRENT_VERSION)) := by
    have h1 : (Val.str v).pyFloatOf = some d := by simpa [Val.pyFloatOf] using hq
    simp [migrate, h1, hcur, Val.show, hnot]
  have hrv : reconcileVersion (storeOf pp doc) doc
      = Except.error (Err.assertionError
          ("Cannot migrate from version " ++ v ++ " to " ++ CURRENT_VERSION)) := by
    simp [reconcileVersion, hv, hvne, hmig]
  simp [construct, hdata, hrv]

/-- C1 witness: a concrete document with `__version__ = "99.0"` aborts
    construction with the migration assertion error. -/
theorem newer_version_always_aborts_witness :
    (construct samplePP { sampleFS with configFile := some doc99 }).err
        = some (Err.assertionError ("Cannot migrate from version 99.0 to 0.1"))
      ∧ (construct samplePP { sampleFS with configFile := some doc99 }).fs
          = { sampleFS with configFile := some doc99 } :=
  ⟨(newer_version_always_aborts samplePP _ doc99 "99.0" ⟨990, 1⟩ rfl (by decide) (by decide)
      (by decide)).1,
   (newer_version_always_aborts samplePP _ doc99 "99.0" ⟨990, 1⟩ rfl (by decide) (by decide)
      (by decide)).2.2.1⟩

/-- C2 counterexample: with project name "Pfund" the resolver's derived
    `config_file_path` keeps the project name verbatim, so it is not the
    config directory joined with the lowercased name plus
    `_config.yml`. -/
theorem resolver_filename_not_lowercased
    : (setup_paths "Pfund" ⟨true, ["p"]⟩ sampleEnv).config_file_path
        ≠ (setup_paths "Pfund" ⟨true, ["p"]⟩ sampleEnv).config_path.join
            (lowerString "Pfund" ++ "_config.yml") := by decide

/-- C2 amended: the resolver's derived config file path is
    `{config_dir}/{project_name}_config.yml` with the project name used
    verbatim; the lowercasing happens in the Configuration store, whose
    config filename is `{project_name.lower()}_config.yml`. -/
theorem config_file_path_formats
    (project : String) (pkg : PyPath) (env : Env)
    (pp : ProjectPaths) (fs : FS) (st : Store)
    (h : (construct pp fs).store = some st) :
    (setup_paths project pkg env).config_file_path
        = (setup_paths project pkg env).config_path.join (project ++ "_config.yml")
      ∧ st.config_filename = lowerString pp.project_name ++ "_config.yml" := by
  refine ⟨rfl, ?_⟩
  rw [(construct_store_some pp fs st h).1]
  rfl

/-- C2 witness: the two filename formats at a concrete successful
    construction. -/
theorem config_file_path_formats_witness :
    (setup_paths "testproject" ⟨true, ["site-packages", "test_pkg"]⟩ sampleEnv).config_file_path
        = (setup_paths "testproject" ⟨true, ["site-packages", "test_pkg"]⟩
            sampleEnv).config_path.join ("testproject" ++ "_config.yml")
      ∧ (storeOf samplePP []).config_filename
          = lowerString samplePP.project_name ++ "_config.yml" :=
  config_file_path_formats "testproject" ⟨true, ["site-packages", "test_pkg"]⟩ sampleEnv
    samplePP sampleFS (storeOf samplePP []) (by decide)

/-- C4: layout resolution canonicalizes the reference path (via the
    OS-provided `resolve`), takes the canonical path's parent directory as
    `package_path` and that directory's final segment as the default
    `project_name`; concretely `/home/u/src/proj/pkg/mod.py` resolves to
    project name "pkg" and package path `/home/u/src/proj/pkg`. -/
theorem detect_layout_correct (resolve : PyPath → PyPath) (p : PyPath) (env : Env) :
    detect_project_layout resolve p = ((resolve p).parent.name, (resolve p).parent)
      ∧ (ProjectPaths.make resolve none p env).project_name = (resolve p).parent.name
      ∧ (ProjectPaths.make resolve none p env).package_path = (resolve p).parent
      ∧ detect_project_layout id ⟨true, ["home", "u", "src", "proj", "pkg", "mod.py"]⟩
          = ("pkg", ⟨true, ["home", "u", "src", "proj", "pkg"]⟩) :=
  ⟨rfl, rfl, rfl, rfl⟩

/-- C5: constructing against `{data_path: "/custom", log_path: "/custom2"}`
    (no version, no cache path) resets: the file afterwards carries the
    current version and all three path fields, with the custom data and
    log paths kept and `cache_path` equal to its resolved default. -/
theorem reset_scenario_cache_defaulted :
    (construct samplePP fs5).fs.configFile
        = some [("__version__", Val.str CURRENT_VERSION),
                ("data_path", Val.path ⟨true, ["custom"]⟩),
                ("log_path", Val.path ⟨true, ["custom2"]⟩),
                ("cache_path", Val.path (sampleEnv.user_cache_dir.join "testproject"))]
      ∧ (construct samplePP fs5).err = none := by decide

/-- C3: a missing config file is treated as the empty document, and any
    document lacking `__version__` takes the reset path: a reset warning is
    emitted and the file is overwritten with a document whose key set is
    exactly `__version__, data_path, log_path, cache_path` and whose
    version is the current schema version; the reset itself raises nothing
    (any construction error is a later missing-default-file error). -/
theorem missing_version_always_resets
    (pp : ProjectPaths) (fs : FS)
    (h : lookupDoc (loadConfigFile fs) "__version__" = none) :
    ∃ d : Doc,
      (construct pp fs).fs.configFile = some d
        ∧ keysOf d = ["__version__", "data_path", "log_path", "cache_path"]
        ∧ lookupDoc d "__version__" = some (Val.str CURRENT_VERSION)
        ∧ (∃ p, Msg.reset p ∈ (construct pp fs).msgs)
        ∧ ∀ e, (construct pp fs).err = some e →
            ∃ f, e = Err.fileNotFound f pp.package_path := by
  have hrv : reconcileVersion (storeOf pp (loadConfigFile fs)) (loadConfigFile fs)
      = Except.ok (some (to_dict (storeOf pp (loadConfigFile fs))),
          [Msg.reset (storeOf pp (loadConfigFile fs)).file_path]) := by
    simp [reconcileVersion, h]
  refine ⟨to_dict (storeOf pp (loadConfigFile fs)), ?_⟩
  cases hse : (seedFiles pp.package_path fs.pkgFiles fs.userFiles DEFAULT_FILES).err with
  | some e0 =>
      refine ⟨?_, rfl, rfl, ?_, ?_⟩
      · simp [construct, hrv, hse]
      · exact ⟨(storeOf pp (loadConfigFile fs)).file_path, by simp [construct, hrv, hse]⟩
      · intro e he
        have he0 : e = e0 := by
          simp [construct, hrv, hse] at he
          exact he.symm
        subst he0
        exact seedFiles_err_shape _ _ _ _ _ hse
  | none =>
      refine ⟨?_, rfl, rfl, ?_, ?_⟩
      · simp [construct, hrv, hse]
      · exact ⟨(storeOf pp (loadConfigFile fs)).file_path, by simp [construct, hrv, hse]⟩
      · intro e he
        simp [construct, hrv, hse] at he

/-- C3 witness: constructing with no config file resets to the
    four-field current-version document. -/
theorem missing_version_always_resets_witness :
    ∃ d : Doc,
      (construct samplePP sampleFS).fs.configFile = some d
        ∧ keysOf d = ["__version__", "data_path", "log_path", "cache_path"]
        ∧ lookupDoc d "__version__" = some (Val.str CURRENT_VERSION)
        ∧ (∃ p, Msg.reset p ∈ (construct samplePP sampleFS).msgs)
        ∧ ∀ e, (construct samplePP sampleFS).err = some e →
            ∃ f, e = Err.fileNotFound f samplePP.package_path :=
  missing_version_always_resets samplePP sampleFS (by decide)

/-- C6: round-trip: after a successful construction, mutating `data_path`
    to `v`, calling `save()`, and constructing a fresh store against the
    same file yields a store whose `data_path` equals `v`. -/
theorem save_reload_roundtrip
    (pp : ProjectPaths) (fs : FS) (st : Store) (v : PyPath)
    (h1 : (construct pp fs).store = some st) :
    ∃ st2 : Store,
      (construct pp (save { st with data_path := v } (construct pp fs).fs)).store = some st2
        ∧ st2.data_path = v := by
  obtain ⟨hst, hu, herr, hpkg⟩ := construct_store_some pp fs st h1
  set fs1 := (construct pp fs).fs with hfs1
  set st1 : Store := { st with data_path := v } with hst1
  have hallmem : ∀ f ∈ DEFAULT_FILES, f ∈ (save st1 fs1).userFiles := by
    intro f hf
    have hmem : f ∈ (seedFiles pp.package_path fs.pkgFiles fs.userFiles DEFAULT_FILES).user :=
      seedFiles_ok_user _ _ _ _ herr f hf
    simpa [save, hu] using hmem
  have hseed : seedFiles pp.package_path (save st1 fs1).pkgFiles
        (save st1 fs1).userFiles DEFAULT_FILES
      = ⟨(save st1 fs1).userFiles, [], none⟩ :=
    seedFiles_all_present _ _ _ _ hallmem
  have hload : loadConfigFile (save st1 fs1) = to_dict st1 := by
    simp [loadConfigFile, save]
  have hver : lookupDoc (to_dict st1) "__version__" = some (Val.str CURRENT_VERSION) := rfl
  have hrv : reconcileVersion (storeOf pp (to_dict st1)) (to_dict st1)
      = Except.ok (none, []) := by
    simp [reconcileVersion, hver]
  refine ⟨storeOf pp (to_dict st1), ?_, rfl⟩
  simp [construct, hload, hrv, hseed]

/-- C6 witness: the round trip at a concrete store and value. -/
theorem save_reload_roundtrip_witness :
    ∃ st2 : Store,
      (construct samplePP
          (save { storeOf samplePP [] with data_path := ⟨true, ["custom"]⟩ }
            (construct samplePP sampleFS).fs)).store = some st2
        ∧ st2.data_path = ⟨true, ["custom"]⟩ :=
  save_reload_roundtrip samplePP sampleFS (storeOf samplePP []) ⟨true, ["custom"]⟩ (by decide)

/-- C7: constructing against a file whose document carries the current
    `__version__` leaves the file content unchanged and prints no
    migration or reset message (every message is a default-file copy
    message). -/
theorem current_version_noop
    (pp : ProjectPaths) (fs : FS) (doc : Doc)
    (hdoc : fs.configFile = some doc)
    (hv : lookupDoc doc "__version__" = some (Val.str CURRENT_VERSION)) :
    (construct pp fs).fs.configFile = some doc
      ∧ ∀ m ∈ (construct pp fs).msgs, ∃ f, m = Msg.copied f := by
  have hdata : loadConfigFile fs = doc := by simp [loadConfigFile, hdoc]
  have hrv : reconcileVersion (storeOf pp doc) doc = Except.ok (none, []) := by
    simp [reconcileVersion, hv]
  cases hse : (seedFiles pp.package_path fs.pkgFiles fs.userFiles DEFAULT_FILES).err with
  | some e0 =>
      constructor
      · simp [construct, hdata, hrv, hse, hdoc]
      · intro m hm
        refine seedFiles_msgs_copied pp.package_path fs.pkgFiles DEFAULT_FILES fs.userFiles m ?_
        simpa [construct, hdata, hrv, hse] using hm
  | none =>
      constructor
      · simp [construct, hdata, hrv, hse, hdoc]
      · intro m hm
        refine seedFiles_msgs_copied pp.package_path fs.pkgFiles DEFAULT_FILES fs.userFiles m ?_
        simpa [construct, hdata, hrv, hse] using hm

/-- C7 witness: a concrete current-version file is left unchanged. -/
theorem current_version_noop_witness :
    (construct samplePP { sampleFS with configFile := some docCur }).fs.configFile = some docCur
      ∧ ∀ m ∈ (construct samplePP { sampleFS with configFile := some docCur }).msgs,
          ∃ f, m = Msg.copied f :=
  current_version_noop samplePP { sampleFS with configFile := some docCur } docCur rfl (by decide)

theorem seedFiles_cons_mem {P : PyPath} {pkg user : List String} {g : String}
    (rest : List String) (h1 : g ∈ user) :
    seedFiles P pkg user (g :: rest) = seedFiles P pkg user rest := by
  simp [seedFiles, h1]

theorem seedFiles_cons_copy {P : PyPath} {pkg user : List String} {g : String}
    (rest : List String) (h1 : g ∉ user) (h2 : g ∈ pkg) :
    seedFiles P pkg user (g :: rest)
      = ⟨(seedFiles P pkg (user ++ [g]) rest).user,
         Msg.copied g :: (seedFiles P pkg (user ++ [g]) rest).msgs,
         (seedFiles P pkg (user ++ [g]) rest).err⟩ := by
  simp [seedFiles, h1, h2]

theorem seedFiles_cons_missing {P : PyPath} {pkg user : List String} {g : String}
    (rest : List String) (h1 : g ∉ user) (h2 : g ∉ pkg) :
    seedFiles P pkg user (g :: rest) = ⟨user, [], some (Err.fileNotFound g P)⟩ := by
  simp [seedFiles, h1, h2]

theorem seed_untouched (P : PyPath) (pkg : List String) (files : List String) :
    ∀ user : List String, ∀ f ∈ user,
      f ∈ (seedFiles P pkg user files).user
        ∧ Msg.copied f ∉ (seedFiles P pkg user files).msgs := by
  induction files with
  | nil => intro user f hf; exact ⟨hf, by simp [seedFiles]⟩
  | cons g rest ih =>
      intro user f hf
      by_cases h1 : g ∈ user
      · rw [seedFiles_cons_mem rest h1]
        exact ih user f hf
      · by_cases h2 : g ∈ pkg
        · rw [seedFiles_cons_copy rest h1 h2]
          have hih := ih (user ++ [g]) f (List.mem_append_left _ hf)
          refine ⟨hih.1, ?_⟩
          intro hm
          rcases List.mem_cons.mp hm with hm | hm
          · exact h1 (Msg.copied.inj hm ▸ hf)
          · exact hih.2 hm
        · rw [seedFiles_cons_missing rest h1 h2]
          exact ⟨hf, by simp⟩

theorem seed_copied (P : PyPath) (pkg : List String) (pre : List String) :
    ∀ post : List String, ∀ f : String, ∀ user : List String,
      (∀ g ∈ pre, g ∈ user ∨ g ∈ pkg) → f ∉ user → f ∉ pre → f ∈ pkg →
        Msg.copied f ∈ (seedFiles P pkg user (pre ++ f :: post)).msgs
          ∧ f ∈ (seedFiles P pkg user (pre ++ f :: post)).user := by
  induction pre with
  | nil =>
      intro post f user _ hfu _ hfp
      rw [List.nil_append, seedFiles_cons_copy post hfu hfp]
      refine ⟨List.mem_cons_self _ _, ?_⟩
      exact seedFiles_user_mono P pkg post (user ++ [f]) f
        (List.mem_append_right _ (List.mem_singleton.mpr rfl))
  | cons g pre' ih =>
      intro post f user hpre hfu hfpre hfp
      by_cases h1 : g ∈ user
      · rw [List.cons_append, seedFiles_cons_mem (pre' ++ f :: post) h1]
        exact ih post f user (fun g' hg' => hpre g' (List.mem_cons_of_mem _ hg')) hfu
          (fun h => hfpre (List.mem_cons_of_mem _ h)) hfp
      · have h2 : g ∈ pkg := (hpre g (List.mem_cons_self _ _)).resolve_left h1
        rw [List.cons_append, seedFiles_cons_copy (pre' ++ f :: post) h1 h2]
        have hfu' : f ∉ user ++ [g] := by
          intro h
          rcases List.mem_append.mp h with h | h
          · exact hfu h
          · refine hfpre ?_
            rw [List.mem_singleton.mp h]
            exact List.mem_cons_self _ _
        have hih := ih post f (user ++ [g])
          (fun g' hg' => (hpre g' (List.mem_cons_of_mem _ hg')).imp (List.mem_append_left _) id)
          hfu' (fun h => hfpre (List.mem_cons_of_mem _ h)) hfp
        exact ⟨List.mem_cons_of_mem _ hih.1, hih.2⟩

theorem seed_first_missing (P : PyPath) (pkg : List String) (pre : List String) :
    ∀ post : List String, ∀ f : String, ∀ user : List String,
      (∀ g ∈ pre, g ∈ user ∨ g ∈ pkg) → f ∉ user → f ∉ pre → f ∉ pkg →
        (seedFiles P pkg user (pre ++ f :: post)).err = some (Err.fileNotFound f P) := by
  induction pre with
  | nil =>
      intro post f user _ hfu _ hfp
      rw [List.nil_append, seedFiles_cons_missing post hfu hfp]
  | cons g pre' ih =>
      intro post f user hpre hfu hfpre hfp
      by_cases h1 : g ∈ user
      · rw [List.cons_append, seedFiles_cons_mem (pre' ++ f :: post) h1]
        exact ih post f user (fun g' hg' => hpre g' (List.mem_cons_of_mem _ hg')) hfu
          (fun h => hfpre (List.mem_cons_of_mem _ h)) hfp
      · have h2 : g ∈ pkg := (hpre g (List.mem_cons_self _ _)).resolve_left h1
        rw [List.cons_append, seedFiles_cons_copy (pre' ++ f :: post) h1 h2]
        have hfu' : f ∉ user ++ [g] := by
          intro h
          rcases List.mem_append.mp h with h | h
          · exact hfu h
          · refine hfpre ?_
            rw [List.mem_singleton.mp h]
            exact List.mem_cons_self _ _
        exact ih post f (user ++ [g])
          (fun g' hg' => (hpre g' (List.mem_cons_of_mem _ hg')).imp (List.mem_append_left _) id)
          hfu' (fun h => hfpre (List.mem_cons_of_mem _ h)) hfp

/-- C8: default-file seeding: a file already in the user config directory
    is left untouched (still present, never copied); a file absent there
    but present in the package directory is copied, provided the files
    before it in the list are present in one of the two locations; the
    first file present in neither location aborts seeding with a
    missing-file error naming the filename and the package directory; and
    at the construction level, a current-version file with both default
    files absent from user and package directories makes construction
    raise the missing-file error for the first default file, naming the
    package directory searched. -/
theorem default_files_seeding (P : PyPath) (pkg user : List String) :
    (∀ files : List String, ∀ f ∈ user,
        f ∈ (seedFiles P pkg user files).user
          ∧ Msg.copied f ∉ (seedFiles P pkg user files).msgs)
      ∧ (∀ pre post : List String, ∀ f : String,
          (∀ g ∈ pre, g ∈ user ∨ g ∈ pkg) → f ∉ user → f ∉ pre → f ∈ pkg →
            Msg.copied f ∈ (seedFiles P pkg user (pre ++ f :: post)).msgs
              ∧ f ∈ (seedFiles P pkg user (pre ++ f :: post)).user)
      ∧ (∀ pre post : List String, ∀ f : String,
          (∀ g ∈ pre, g ∈ user ∨ g ∈ pkg) → f ∉ user → f ∉ pre → f ∉ pkg →
            (seedFiles P pkg user (pre ++ f :: post)).err = some (Err.fileNotFound f P))
      ∧ (∀ pp : ProjectPaths, ∀ fs : FS,
          fs.configFile = some docCur → fs.userFiles = [] → fs.pkgFiles = [] →
            (construct pp fs).err
              = some (Err.fileNotFound LOGGING_CONFIG_FILENAME pp.package_path)) := by
  refine ⟨fun files f hf => seed_untouched P pkg files user f hf,
    fun pre post f h1 h2 h3 h4 => seed_copied P pkg pre post f user h1 h2 h3 h4,
    fun pre post f h1 h2 h3 h4 => seed_first_missing P pkg pre post f user h1 h2 h3 h4,
    ?_⟩
  intro pp fs h1 h2 h3
  have hdata : loadConfigFile fs = docCur := by simp [loadConfigFile, h1]
  have hl : lookupDoc docCur "__version__" = some (Val.str CURRENT_VERSION) := rfl
  have hrv : reconcileVersion (storeOf pp docCur) docCur = Except.ok (none, []) := by
    simp [reconcileVersion, hl]
  have hseed : seedFiles pp.package_path fs.pkgFiles fs.userFiles DEFAULT_FILES
      = ⟨[], [], some (Err.fileNotFound LOGGING_CONFIG_FILENAME pp.package_path)⟩ := by
    rw [h2, h3]
    rfl
  simp [construct, hdata, hrv, hseed]

/-- C8 witness: the three per-file behaviors and the construction-level
    error at concrete inputs. -/
theorem default_files_seeding_witness :
    ("compose.yml" ∈ (seedFiles ⟨true, ["pkg"]⟩ ["logging.yml"] ["compose.yml"]
            ["compose.yml", "logging.yml"]).user
        ∧ Msg.copied "compose.yml" ∉ (seedFiles ⟨true, ["pkg"]⟩ ["logging.yml"] ["compose.yml"]
            ["compose.yml", "logging.yml"]).msgs)
      ∧ (Msg.copied "logging.yml" ∈ (seedFiles ⟨true, ["pkg"]⟩ ["logging.yml"] ["compose.yml"]
            ([] ++ "logging.yml" :: [])).msgs
          ∧ "logging.yml" ∈ (seedFiles ⟨true, ["pkg"]⟩ ["logging.yml"] ["compose.yml"]
            ([] ++ "logging.yml" :: [])).user)
      ∧ (seedFiles ⟨true, ["pkg"]⟩ ["logging.yml"] ["compose.yml"]
            ([] ++ "absent.yml" :: [])).err
          = some (Err.fileNotFound "absent.yml" ⟨true, ["pkg"]⟩)
      ∧ (construct samplePP ⟨some docCur, [], [], []⟩).err
          = some (Err.fileNotFound LOGGING_CONFIG_FILENAME samplePP.package_path) :=
  ⟨(default_files_seeding ⟨true, ["pkg"]⟩ ["logging.yml"] ["compose.yml"]).1
      ["compose.yml", "logging.yml"] "compose.yml" (by decide),
   (default_files_seeding ⟨true, ["pkg"]⟩ ["logging.yml"] ["compose.yml"]).2.1
      [] [] "logging.yml" (by simp) (by decide) (by decide) (by decide),
   (default_files_seeding ⟨true, ["pkg"]⟩ ["logging.yml"] ["compose.yml"]).2.2.1
      [] [] "absent.yml" (by simp) (by decide) (by decide) (by decide),
   (default_files_seeding ⟨true, ["pkg"]⟩ ["logging.yml"] ["compose.yml"]).2.2.2
      samplePP ⟨some docCur, [], [], []⟩ rfl rfl rfl⟩

/-- C9: `ensure_dirs` with no arguments creates the four standard
    directories and succeeds whatever already exists on disk; any call in
    which some passed value is not a Path raises a TypeError. -/
theorem ensure_dirs_correct (st : Store) :
    (∀ dirs : List PyPath, ∃ d : List PyPath,
        ensure_dirs st [] dirs = Except.ok d
          ∧ st.config_path ∈ d ∧ st.data_path ∈ d ∧ st.log_path ∈ d ∧ st.cache_path ∈ d)
      ∧ (∀ args : List PyObj, ∀ dirs : List PyPath, ∀ r : String,
          PyObj.notPath r ∈ args →
            ∃ d msg, ensure_dirs st args dirs = Except.error (d, msg)) := by
  constructor
  · intro dirs
    refine ⟨[st.config_path, st.data_path, st.log_path, st.cache_path].foldl mkdirP dirs,
      ?_, ?_, ?_, ?_, ?_⟩
    · rfl
    · exact mem_foldl_mkdirP_self _ dirs _ (by simp)
    · exact mem_foldl_mkdirP_self _ dirs _ (by simp)
    · exact mem_foldl_mkdirP_self _ dirs _ (by simp)
    · exact mem_foldl_mkdirP_self _ dirs _ (by simp)
  · intro args
    induction args with
    | nil => intro dirs r hr; simp at hr
    | cons a rest ih =>
        intro dirs r hr
        cases a with
        | notPath r0 =>
            exact ⟨dirs, "Path " ++ r0 ++ " is not a Path object", rfl⟩
        | path p =>
            have hr' : PyObj.notPath r ∈ rest := by
              rcases List.mem_cons.mp hr with h | h
              · exact absurd h (by simp)
              · exact h
            have hne : rest.isEmpty = false := by
              cases rest
              · simp at hr'
              · rfl
            obtain ⟨d, msg, hd⟩ := ih (mkdirP dirs p) r hr'
            refine ⟨d, msg, ?_⟩
            have hstep : ensure_dirs st (PyObj.path p :: rest) dirs
                = ensureDirsLoop rest (mkdirP dirs p) := rfl
            have hrest : ensure_dirs st rest (mkdirP dirs p)
                = ensureDirsLoop rest (mkdirP dirs p) := by
              simp [ensure_dirs, hne]
            rw [hstep, ← hrest]
            exact hd

/-- C9 witness: the default call and a bad-argument call at concrete
    inputs. -/
theorem ensure_dirs_correct_witness :
    (∃ d : List PyPath,
        ensure_dirs (storeOf samplePP []) [] [] = Except.ok d
          ∧ (storeOf samplePP []).config_path ∈ d ∧ (storeOf samplePP []).data_path ∈ d
          ∧ (storeOf samplePP []).log_path ∈ d ∧ (storeOf samplePP []).cache_path ∈ d)
      ∧ (∃ d msg, ensure_dirs (storeOf samplePP []) [PyObj.notPath "s"] []
          = Except.error (d, msg)) :=
  ⟨(ensure_dirs_correct (storeOf samplePP [])).1 [],
   (ensure_dirs_correct (storeOf samplePP [])).2 [PyObj.notPath "s"] [] "s" (by decide)⟩

/-- C10: `ensure_dirs` validates arguments one at a time: when the first
    non-Path value follows `k` Path arguments, the TypeError carries a
    directory state in which all `k` preceding directories have already
    been created. -/
theorem ensure_dirs_creates_before_type_error
    (st : Store) (pre : List PyPath) (r : String) (rest : List PyObj) (dirs : List PyPath) :
    ensure_dirs st (pre.map PyObj.path ++ PyObj.notPath r :: rest) dirs
        = Except.error (pre.foldl mkdirP dirs, "Path " ++ r ++ " is not a Path object")
      ∧ ∀ p ∈ pre, p ∈ pre.foldl mkdirP dirs := by
  constructor
  · have hne : (pre.map PyObj.path ++ PyObj.notPath r :: rest).isEmpty = false := by
      cases pre <;> rfl
    have h1 : ensure_dirs st (pre.map PyObj.path ++ PyObj.notPath r :: rest) dirs
        = ensureDirsLoop (pre.map PyObj.path ++ PyObj.notPath r :: rest) dirs := by
      simp [ensure_dirs, hne]
    rw [h1, ensureDirsLoop_paths pre (PyObj.notPath r :: rest) dirs]
    rfl
  · intro p hp
    exact mem_foldl_mkdirP_self pre dirs p hp

/-- C10 witness: one Path argument followed by a non-Path argument. -/
theorem ensure_dirs_creates_before_type_error_witness :
    ensure_dirs (storeOf samplePP []) ([⟨true, ["a"]⟩].map PyObj.path ++ PyObj.notPath "42" :: []) []
        = Except.error ([(⟨true, ["a"]⟩ : PyPath)].foldl mkdirP [],
            "Path " ++ "42" ++ " is not a Path object")
      ∧ ∀ p ∈ [(⟨true, ["a"]⟩ : PyPath)], p ∈ [(⟨true, ["a"]⟩ : PyPath)].foldl mkdirP [] :=
  ensure_dirs_creates_before_type_error (storeOf samplePP []) [⟨true, ["a"]⟩] "42" [] []

end PfundKit
